import Mathlib

/-!
alamo: the nRF24L01 driver `mirf.c`.

A shallow embedding of `src/mirf.c` (register access layer, configuration
sequencer, transmit state machine, receive path) and the properties of its
specification.

The driver talks to its surroundings only through two GPIO lines (chip-enable,
chip-select), the SPI byte exchange and busy-wait delays.  The embedding threads
a `World` through every function: the state of whatever sits on the bus (an
arbitrary device `Dev σ`), the two pin levels, the shadow byte `config`, and the
log of everything the host did, in order.

The headers `mirf.h`, `nRF24L01.h` and `swspi.h` are not among the sources.  Their
numeric constants are the fields of `Consts`, a parameter of every function;
the two macros `TRANSMIT_MODE_ON` / `TRANSMIT_MODE_OFF` are the fields of
`TxMode`, a parameter of `mirf_write`.
-/

namespace Alamo

/-! ## Constants of the missing headers -/

/-- The constants `mirf.c` takes from `nRF24L01.h` (register addresses, bit
positions, command opcodes) and from `mirf.h` (result codes, the two fixed
addresses).  They are parameters: the headers are not among the sources. -/
structure Consts where
  CONFIG : Nat
  EN_AA : Nat
  EN_RXADDR : Nat
  SETUP_AW : Nat
  SETUP_RETR : Nat
  RF_CH : Nat
  RF_SETUP : Nat
  STATUS : Nat
  RX_ADDR_P0 : Nat
  TX_ADDR : Nat
  RX_PW_P0 : Nat
  EN_CRC : Nat
  CRCO : Nat
  PWR_UP : Nat
  PRIM_RX : Nat
  RX_DR : Nat
  TX_DS : Nat
  MAX_RT : Nat
  R_REGISTER : Nat
  W_REGISTER : Nat
  REGISTER_MASK : Nat
  R_RX_PAYLOAD : Nat
  W_TX_PAYLOAD : Nat
  FLUSH_TX : Nat
  FLUSH_RX : Nat
  NOP : Nat
  RESULT_SUCCESS : Nat
  RESULT_FAILED : Nat
  RESULT_TIMEOUT : Nat
  mirf_TX_ADDR : List Nat
  mirf_RX_ADDR : List Nat

/-- The avr-libc bit-value helper: `_BV(b)` is `1 << b`. -/
def _BV (b : Nat) : Nat := 1 <<< b

/-- A five-element `uint8_t` array with a brace initialiser: the initialiser's
elements, zero-filled up to five. -/
def array5 (ini : List Nat) : List Nat := (ini ++ List.replicate 5 0).take 5

/-! ## The world the driver runs in -/

/-- One thing the host does to the outside, in the order it does it. -/
inductive Act where
  | ce (level : Bool)
  | csn (level : Bool)
  | spi (out : Nat)
  | delay_us (n : Nat)
  | delay_ms (n : Nat)
  deriving DecidableEq, Repr

/-- Whatever is wired to the bus: how it answers a byte exchange and how it
reacts to the two control lines and to the passing of time (in microseconds).
Every behaviour of the radio chip, simulated or real, is some `Dev`. -/
structure Dev (σ : Type) where
  exchange : Nat → σ → Nat × σ
  select : Bool → σ → σ
  enable : Bool → σ → σ
  wait : Nat → σ → σ

/-- The state threaded through the driver: the device, the levels of the
chip-enable and chip-select lines, the global `config` of `mirf.c`, and the
log of the host's actions. -/
structure World (σ : Type) where
  chip : σ
  ce : Bool
  csn : Bool
  config : Nat
  log : List Act

variable {σ : Type}

/-- Modelled from the spec: the macro `CHIP_ENABLE_LO` of `mirf.h` (§6, GPIO
primitive: level clear for chip-enable). -/
def CHIP_ENABLE_LO (D : Dev σ) (w : World σ) : World σ :=
  { w with chip := D.enable false w.chip, ce := false, log := w.log ++ [Act.ce false] }

/-- Modelled from the spec: the macro `CHIP_ENABLE_HI` of `mirf.h` (§6, GPIO
primitive: level set for chip-enable). -/
def CHIP_ENABLE_HI (D : Dev σ) (w : World σ) : World σ :=
  { w with chip := D.enable true w.chip, ce := true, log := w.log ++ [Act.ce true] }

/-- Modelled from the spec: the macro `CHIP_SELECT_LO` of `mirf.h` (§6, GPIO
primitive: level clear for chip-select; the line is active low). -/
def CHIP_SELECT_LO (D : Dev σ) (w : World σ) : World σ :=
  { w with chip := D.select false w.chip, csn := false, log := w.log ++ [Act.csn false] }

/-- Modelled from the spec: the macro `CHIP_SELECT_HI` of `mirf.h` (§6, GPIO
primitive: level set for chip-select). -/
def CHIP_SELECT_HI (D : Dev σ) (w : World σ) : World σ :=
  { w with chip := D.select true w.chip, csn := true, log := w.log ++ [Act.csn true] }

/-- Modelled from the spec: `spi_transfer` of `swspi.h` (§6, bus primitive
`exchangeByte(out) -> in`): one full-duplex exchange of a `uint8_t`. -/
def spi_transfer (D : Dev σ) (out : Nat) (w : World σ) : Nat × World σ :=
  ((D.exchange (out % 256) w.chip).1 % 256,
   { w with chip := (D.exchange (out % 256) w.chip).2, log := w.log ++ [Act.spi (out % 256)] })

/-- Modelled from the spec: `spi_ntransfer` of `swspi.h` (§6, bus primitive
`exchangeBuffer(out[], in[], length)`): `len` exchanges in order, sending the
bytes of `dataout` and returning the bytes received. -/
def spi_ntransfer (D : Dev σ) : List Nat → Nat → World σ → List Nat × World σ
  | _, 0, w => ([], w)
  | dataout, n + 1, w =>
    let r := spi_transfer D (dataout.headD 0) w
    let rs := spi_ntransfer D dataout.tail n r.2
    (r.1 :: rs.1, rs.2)

/-- The avr-libc busy wait `_delay_us`. -/
def _delay_us (D : Dev σ) (n : Nat) (w : World σ) : World σ :=
  { w with chip := D.wait n w.chip, log := w.log ++ [Act.delay_us n] }

/-- The avr-libc busy wait `_delay_ms`. -/
def _delay_ms (D : Dev σ) (n : Nat) (w : World σ) : World σ :=
  { w with chip := D.wait (1000 * n) w.chip, log := w.log ++ [Act.delay_ms n] }

/-- The two macros of `mirf.h` that switch the radio between transmitter and
receiver mode.  Their bodies are not among the sources; they are parameters,
free to touch the bus, the pins and `config`. -/
structure TxMode (σ : Type) where
  TRANSMIT_MODE_ON : World σ → World σ
  TRANSMIT_MODE_OFF : World σ → World σ

/-! ## Register access layer (`mirf.c`, lines 71-107) -/

/-- `uint8_t mirf_ld(uint8_t reg)`: load value from the specified register. -/
def mirf_ld (K : Consts) (D : Dev σ) (reg : Nat) (w : World σ) : Nat × World σ :=
  let w1 := CHIP_SELECT_LO D w
  let w2 := (spi_transfer D (K.R_REGISTER ||| (K.REGISTER_MASK &&& reg)) w1).2
  let w3 := _delay_us D 10 w2
  let r := spi_transfer D K.NOP w3
  (r.1, CHIP_SELECT_HI D r.2)

/-- `void mirf_st(uint8_t reg, uint8_t value)`: store the value to a register. -/
def mirf_st (K : Consts) (D : Dev σ) (reg value : Nat) (w : World σ) : World σ :=
  let w1 := CHIP_SELECT_LO D w
  let w2 := (spi_transfer D (K.W_REGISTER ||| (K.REGISTER_MASK &&& reg)) w1).2
  let w3 := _delay_us D 10 w2
  let w4 := (spi_transfer D value w3).2
  CHIP_SELECT_HI D w4

/-- `void mirf_ldm(uint8_t reg, uint8_t *value, uint8_t len)`: the buffer
`value` is both what is sent and where the answer goes; the result is the
buffer afterwards. -/
def mirf_ldm (K : Consts) (D : Dev σ) (reg : Nat) (value : List Nat) (len : Nat)
    (w : World σ) : List Nat × World σ :=
  let w1 := CHIP_SELECT_LO D w
  let w2 := (spi_transfer D (K.R_REGISTER ||| (K.REGISTER_MASK &&& reg)) w1).2
  let w3 := _delay_us D 10 w2
  let r := spi_ntransfer D value len w3
  (r.1 ++ value.drop len, CHIP_SELECT_HI D r.2)

/-- `void mirf_stm(uint8_t reg, uint8_t *value, uint8_t len)`: as `mirf_ldm`
with the write opcode; the caller's buffer is overwritten with what the chip
shifted out meanwhile. -/
def mirf_stm (K : Consts) (D : Dev σ) (reg : Nat) (value : List Nat) (len : Nat)
    (w : World σ) : List Nat × World σ :=
  let w1 := CHIP_SELECT_LO D w
  let w2 := (spi_transfer D (K.W_REGISTER ||| (K.REGISTER_MASK &&& reg)) w1).2
  let w3 := _delay_us D 10 w2
  let r := spi_ntransfer D value len w3
  (r.1 ++ value.drop len, CHIP_SELECT_HI D r.2)

/-! ## Configuration sequencer (`mirf.c`, lines 14-69) -/

/-- `void mirf_init()`. -/
def mirf_init (K : Consts) (D : Dev σ) (w : World σ) : World σ :=
  let w := CHIP_ENABLE_LO D w
  let w := CHIP_SELECT_HI D w
  let w := mirf_st K D K.EN_AA 0x01 w
  let w := mirf_st K D K.SETUP_RETR 0x3F w
  let w := mirf_st K D K.EN_RXADDR 0x01 w
  let w := mirf_st K D K.SETUP_AW 0x03 w
  let w := mirf_st K D K.RF_CH 0x03 w
  let w := mirf_st K D K.RF_SETUP 0x06 w
  let rx_addr := array5 K.mirf_RX_ADDR
  let w := (mirf_stm K D K.RX_ADDR_P0 rx_addr 5 w).2
  let w := mirf_st K D K.RX_PW_P0 8 w
  let w := mirf_st K D K.STATUS (_BV K.RX_DR) w
  let w := mirf_st K D K.STATUS (_BV K.TX_DS) w
  let w := mirf_st K D K.STATUS (_BV K.MAX_RT) w
  let w := { w with config := 0x00 }
  let w := { w with config := (w.config ||| _BV K.EN_CRC) % 256 }
  let w := { w with config := (w.config ||| _BV K.CRCO) % 256 }
  let w := { w with config := (w.config ||| _BV K.PRIM_RX) % 256 }
  mirf_st K D K.CONFIG (w.config ||| _BV K.PWR_UP) w

/-! ## Receive path (`mirf.c`, lines 118-135) -/

/-- `void mirf_read(uint8_t *data, uint8_t len)`: the result is the buffer
`data` afterwards. -/
def mirf_read (K : Consts) (D : Dev σ) (data : List Nat) (len : Nat) (w : World σ) :
    List Nat × World σ :=
  let w := CHIP_SELECT_LO D w
  let w := (spi_transfer D K.R_RX_PAYLOAD w).2
  let w := _delay_us D 10 w
  let r := spi_ntransfer D data len w
  let w := CHIP_SELECT_HI D r.2
  let w := mirf_st K D K.STATUS (_BV K.RX_DR) w
  let w := CHIP_SELECT_LO D w
  let w := (spi_transfer D K.FLUSH_TX w).2
  (r.1 ++ data.drop len, CHIP_SELECT_HI D w)

/-! ## Transmit state machine (`mirf.c`, lines 146-212) -/

/-- Lines 149-184 of `mirf_write`: everything before the poll loop.  The
result is the caller's buffer afterwards and the world in which the loop
starts. -/
def mirf_write_send (K : Consts) (D : Dev σ) (M : TxMode σ) (value : List Nat) (len : Nat)
    (w : World σ) : List Nat × World σ :=
  let w := CHIP_SELECT_LO D w
  let w := (spi_transfer D K.FLUSH_TX w).2
  let w := CHIP_SELECT_HI D w
  let w := CHIP_SELECT_LO D w
  let w := (spi_transfer D K.FLUSH_RX w).2
  let w := CHIP_SELECT_HI D w
  let w := mirf_st K D K.STATUS (_BV K.TX_DS ||| _BV K.MAX_RT) w
  let w := mirf_st K D K.EN_AA 0x01 w
  let tx_addr := array5 K.mirf_TX_ADDR
  let w := (mirf_stm K D K.TX_ADDR tx_addr 5 w).2
  let rx_addr := array5 K.mirf_RX_ADDR
  let w := (mirf_stm K D K.RX_ADDR_P0 rx_addr 5 w).2
  let w := CHIP_SELECT_LO D w
  let w := (spi_transfer D K.W_TX_PAYLOAD w).2
  let w := _delay_us D 10 w
  let r := spi_ntransfer D value len w
  let w := CHIP_SELECT_HI D r.2
  let w := M.TRANSMIT_MODE_ON w
  (r.1 ++ value.drop len, CHIP_ENABLE_HI D w)

/-- Lines 189-206 of `mirf_write`: the poll loop, as a function of its two
variables `timeout` and `ret`.  `ret` is `none` while nothing has been
assigned to it. -/
def mirf_write_loop (K : Consts) (D : Dev σ) (timeout : Int) (ret : Option Nat)
    (w : World σ) : Option Nat × World σ :=
  if timeout > 0 then
    let r := mirf_ld K D K.STATUS w
    let status := r.1
    if status &&& _BV K.MAX_RT ≠ 0 then
      (some K.RESULT_FAILED, mirf_st K D K.STATUS (_BV K.MAX_RT) r.2)
    else if status &&& _BV K.TX_DS ≠ 0 then
      (some K.RESULT_SUCCESS, mirf_st K D K.STATUS (_BV K.TX_DS) r.2)
    else if timeout < 0 then
      (some K.RESULT_TIMEOUT, r.2)
    else
      mirf_write_loop K D (timeout - 10) ret (_delay_ms D 10 r.2)
  else
    (ret, w)
termination_by timeout.toNat
decreasing_by omega

/-- `uint8_t mirf_write(uint8_t *value, uint8_t len)`.  The result is the
returned byte (`none` when the function returns `ret` without ever having
assigned it), the caller's buffer afterwards, and the world. -/
def mirf_write (K : Consts) (D : Dev σ) (M : TxMode σ) (value : List Nat) (len : Nat)
    (w : World σ) : Option Nat × List Nat × World σ :=
  let s := mirf_write_send K D M value len w
  let p := mirf_write_loop K D 500 none s.2
  let w := CHIP_ENABLE_LO D p.2
  let w := M.TRANSMIT_MODE_OFF w
  (p.1, s.1, w)

/-! ## Devices -/

/-- A device that answers the byte exchanges from a script, one byte of the
list per exchange (zero once the list is used up), and ignores everything
else.  Any sequence of answers is the behaviour of one of these. -/
def scripted : Dev (List Nat) where
  exchange := fun _ s => (s.headD 0, s.tail)
  select := fun _ s => s
  enable := fun _ s => s
  wait := fun _ s => s

/-- A device that answers every byte exchange with the same byte `b` and
ignores everything else.  With `b = 0x0E` it is a radio whose status never
shows a flag: the peer never acknowledges and the retries never run out. -/
def steady (b : Nat) : Dev Unit where
  exchange := fun _ s => (b, s)
  select := fun _ s => s
  enable := fun _ s => s
  wait := fun _ s => s

/-- The commands the simulated chip tells apart. -/
inductive Cmd where
  | r_register (r : Nat)
  | w_register (r : Nat)
  | r_rx_payload
  | w_tx_payload
  | flush_tx
  | flush_rx
  | nop
  deriving DecidableEq, Repr

/-- Modelled from the spec: the simulated chip of §8, which is not among the
sources.  A register file (`regs r i` is byte `i` of register `r`), the status
byte with its three latched flags, the two payload queues (glossary), and the
state of the bus transaction in progress: whether chip-select is asserted, the
command decoded from the first byte, the position in the data phase, and the
payload being loaded.  The radio itself is not simulated: no flag is ever
raised and no payload arrives or leaves by itself. -/
structure Chip where
  regs : Nat → Nat → Nat
  status : Nat
  rx_fifo : List (List Nat)
  tx_fifo : List (List Nat)
  selected : Bool
  cmd : Option Cmd
  idx : Nat
  pending : List Nat

/-- Modelled from the spec: how the simulated chip reads a command byte (§4.1:
a command opcode OR-ed with the masked register address; §6: the other
commands are fixed single bytes). -/
def Chip.decode (K : Consts) (c : Nat) : Cmd :=
  if c ^^^ (c &&& K.REGISTER_MASK) = K.R_REGISTER then Cmd.r_register (c &&& K.REGISTER_MASK)
  else if c ^^^ (c &&& K.REGISTER_MASK) = K.W_REGISTER then Cmd.w_register (c &&& K.REGISTER_MASK)
  else if c = K.R_RX_PAYLOAD then Cmd.r_rx_payload
  else if c = K.W_TX_PAYLOAD then Cmd.w_tx_payload
  else if c = K.FLUSH_TX then Cmd.flush_tx
  else if c = K.FLUSH_RX then Cmd.flush_rx
  else Cmd.nop

/-- The three latched flags of the status byte, as a mask. -/
def Chip.flags (K : Consts) : Nat := _BV K.RX_DR ||| _BV K.TX_DS ||| _BV K.MAX_RT

/-- Modelled from the spec: byte `i` of register `r` as the simulated chip
shows it; the status register shows the status byte. -/
def Chip.load (K : Consts) (r i : Nat) (c : Chip) : Nat :=
  if r = K.REGISTER_MASK &&& K.STATUS then c.status else c.regs r i

/-- Modelled from the spec: a write of `v` to byte `i` of register `r` of the
simulated chip.  Registers are plain storage, except the status register (§8,
glossary): writing a flag bit to 1 clears it, writing 0 leaves it unchanged,
and nothing else in the status byte can be written. -/
def Chip.store (K : Consts) (r i v : Nat) (c : Chip) : Chip :=
  if r = K.REGISTER_MASK &&& K.STATUS then
    { c with status := c.status ^^^ (c.status &&& (v &&& Chip.flags K)) }
  else
    { c with regs := fun r1 i1 => if r1 = r ∧ i1 = i then v else c.regs r1 i1 }

/-- Modelled from the spec: the simulated chip takes the first byte of a bus
transaction as the command; the two flush commands act at once. -/
def Chip.command (K : Consts) (b : Nat) (c : Chip) : Chip :=
  match Chip.decode K b with
  | Cmd.flush_tx => { c with cmd := some Cmd.flush_tx, idx := 0, tx_fifo := [] }
  | Cmd.flush_rx => { c with cmd := some Cmd.flush_rx, idx := 0, rx_fifo := [] }
  | k => { c with cmd := some k, idx := 0 }

/-- Modelled from the spec: one byte exchange with the simulated chip.  During
the command byte the chip shifts out its status; in the data phase it shifts
out the addressed register or the head of the receive queue, byte by byte, or
takes the byte in. -/
def Chip.exchange (K : Consts) (b : Nat) (c : Chip) : Nat × Chip :=
  if c.selected then
    match c.cmd with
    | none => (c.status, Chip.command K b c)
    | some (Cmd.r_register r) => (Chip.load K r c.idx c, { c with idx := c.idx + 1 })
    | some (Cmd.w_register r) => (0, { Chip.store K r c.idx b c with idx := c.idx + 1 })
    | some Cmd.r_rx_payload => ((c.rx_fifo.headD []).getD c.idx 0, { c with idx := c.idx + 1 })
    | some Cmd.w_tx_payload => (0, { c with pending := c.pending ++ [b], idx := c.idx + 1 })
    | some _ => (0, c)
  else (0, c)

/-- Modelled from the spec: the simulated chip at an edge of chip-select.  The
falling edge opens a transaction; the rising edge closes it: a payload that was
read leaves the receive queue, a payload that was loaded enters the transmit
queue. -/
def Chip.select (level : Bool) (c : Chip) : Chip :=
  if level then
    if c.selected then
      match c.cmd with
      | some Cmd.r_rx_payload =>
        { c with selected := false, cmd := none, idx := 0, pending := [],
                 rx_fifo := c.rx_fifo.tail }
      | some Cmd.w_tx_payload =>
        { c with selected := false, cmd := none, idx := 0, pending := [],
                 tx_fifo := c.tx_fifo ++ [c.pending] }
      | _ => { c with selected := false, cmd := none, idx := 0, pending := [] }
    else c
  else
    if c.selected then c
    else { c with selected := true, cmd := none, idx := 0, pending := [] }

/-- Modelled from the spec: the simulated chip as a device on the bus. -/
def sim (K : Consts) : Dev Chip where
  exchange := Chip.exchange K
  select := Chip.select
  enable := fun _ c => c
  wait := fun _ c => c

/-- What the simulated chip needs of the header constants to be a chip that
speaks them: opcodes, mask and flag positions fit a byte, the two register
opcodes leave the address field free and differ, no other command byte falls in
a register class, the command bytes differ from one another, and the three
status flags are three bits. -/
def Consts.WF (K : Consts) : Prop :=
  K.R_REGISTER < 256 ∧ K.W_REGISTER < 256 ∧ K.REGISTER_MASK < 256 ∧
  K.R_REGISTER &&& K.REGISTER_MASK = 0 ∧ K.W_REGISTER &&& K.REGISTER_MASK = 0 ∧
  K.R_REGISTER ≠ K.W_REGISTER ∧
  (∀ c ∈ [K.R_RX_PAYLOAD, K.W_TX_PAYLOAD, K.FLUSH_TX, K.FLUSH_RX],
    c < 256 ∧ c ^^^ (c &&& K.REGISTER_MASK) ≠ K.R_REGISTER ∧
    c ^^^ (c &&& K.REGISTER_MASK) ≠ K.W_REGISTER) ∧
  [K.R_RX_PAYLOAD, K.W_TX_PAYLOAD, K.FLUSH_TX, K.FLUSH_RX].Nodup ∧
  K.RX_DR < 8 ∧ K.TX_DS < 8 ∧ K.MAX_RT < 8 ∧ [K.RX_DR, K.TX_DS, K.MAX_RT].Nodup

instance (K : Consts) : Decidable K.WF := by
  unfold Consts.WF
  infer_instance

/-- A set of header constants: the register map, bit positions and command
set of the nRF24L01; sample result codes and sample addresses. -/
def nRF24L01 : Consts where
  CONFIG := 0x00
  EN_AA := 0x01
  EN_RXADDR := 0x02
  SETUP_AW := 0x03
  SETUP_RETR := 0x04
  RF_CH := 0x05
  RF_SETUP := 0x06
  STATUS := 0x07
  RX_ADDR_P0 := 0x0A
  TX_ADDR := 0x10
  RX_PW_P0 := 0x11
  EN_CRC := 3
  CRCO := 2
  PWR_UP := 1
  PRIM_RX := 0
  RX_DR := 6
  TX_DS := 5
  MAX_RT := 4
  R_REGISTER := 0x00
  W_REGISTER := 0x20
  REGISTER_MASK := 0x1F
  R_RX_PAYLOAD := 0x61
  W_TX_PAYLOAD := 0xA0
  FLUSH_TX := 0xE1
  FLUSH_RX := 0xE2
  NOP := 0xFF
  RESULT_SUCCESS := 0
  RESULT_FAILED := 1
  RESULT_TIMEOUT := 2
  mirf_TX_ADDR := [0xE7, 0xE7, 0xE7, 0xE7, 0xE7]
  mirf_RX_ADDR := [0xE7, 0xE7, 0xE7, 0xE7, 0xE7]

/-- A simulated chip fresh out of reset: registers zero, queues empty, no
flag raised, no transaction open. -/
def Chip.reset : Chip where
  regs := fun _ _ => 0
  status := 0
  rx_fifo := []
  tx_fifo := []
  selected := false
  cmd := none
  idx := 0
  pending := []

/-- A simulated chip with all three flags raised (status 0x70) and nothing
else. -/
def Chip.flagged : Chip := { Chip.reset with status := 0x70 }

/-- A simulated chip that has received the payload 01 02 03 04 05 00 00 00 and
a second one behind it, with a payload waiting in its transmit queue and all
three flags raised. -/
def Chip.received : Chip :=
  { Chip.reset with
    status := 0x70
    rx_fifo := [[0x01, 0x02, 0x03, 0x04, 0x05, 0x00, 0x00, 0x00], [9, 9, 9, 9, 9, 9, 9, 9]]
    tx_fifo := [[7, 7, 7, 7, 7, 7, 7, 7]] }

/-- A world around a device state: both control lines high is the idle level
of chip-select; chip-enable low; nothing done yet. -/
def World.start (s : σ) : World σ where
  chip := s
  ce := false
  csn := true
  config := 0
  log := []

/-- Modelled from the spec: the macros `TRANSMIT_MODE_ON` and
`TRANSMIT_MODE_OFF` of `mirf.h` (§4.3 step 5: switch the primary-receiver-mode
bit off; step 7: restore primary-receiver-mode; §3: a change of a configuration
bit goes through the shadow byte before the chip write).  One possible pair of
bodies, used where a concrete pair is needed. -/
def txMode (K : Consts) (D : Dev σ) : TxMode σ where
  TRANSMIT_MODE_ON := fun w =>
    mirf_st K D K.CONFIG ((w.config ^^^ (w.config &&& _BV K.PRIM_RX)) ||| _BV K.PWR_UP)
      { w with config := w.config ^^^ (w.config &&& _BV K.PRIM_RX) }
  TRANSMIT_MODE_OFF := fun w =>
    mirf_st K D K.CONFIG ((w.config ||| _BV K.PRIM_RX) % 256 ||| _BV K.PWR_UP)
      { w with config := (w.config ||| _BV K.PRIM_RX) % 256 }

/-- The payload the demo application sends: the bytes 1 to 8. -/
def demoPayload : List Nat := [1, 2, 3, 4, 5, 6, 7, 8]

/-- A script for the scripted device: zero for the 29 exchanges of
`mirf_write_send` with an 8-byte payload and `txMode`, zero for the first status
read (two exchanges) and for the command byte of the second, then `last` as
the status byte of the second read. -/
def scriptSecond (last : Nat) : List Nat := List.replicate 32 0 ++ [last]

/-! ## Vocabulary of the statements -/

/-- What `mirf_ld K D reg` does on the bus. -/
def ldTrace (K : Consts) (reg : Nat) : List Act :=
  [Act.csn false, Act.spi ((K.R_REGISTER ||| (K.REGISTER_MASK &&& reg)) % 256),
   Act.delay_us 10, Act.spi (K.NOP % 256), Act.csn true]

/-- What `mirf_st K D reg value` does on the bus. -/
def stTrace (K : Consts) (reg value : Nat) : List Act :=
  [Act.csn false, Act.spi ((K.W_REGISTER ||| (K.REGISTER_MASK &&& reg)) % 256),
   Act.delay_us 10, Act.spi (value % 256), Act.csn true]

/-- What `mirf_stm K D reg value len` does on the bus when `value` holds `len`
bytes. -/
def stmTrace (K : Consts) (reg : Nat) (value : List Nat) : List Act :=
  [Act.csn false, Act.spi ((K.W_REGISTER ||| (K.REGISTER_MASK &&& reg)) % 256),
   Act.delay_us 10] ++ value.map (fun b => Act.spi (b % 256)) ++ [Act.csn true]

/-- One turn of the poll loop that does not break: the status read and the
10 ms sleep. -/
def pollStep (K : Consts) (D : Dev σ) (w : World σ) : World σ :=
  _delay_ms D 10 (mirf_ld K D K.STATUS w).2

/-- The world after `n` turns of the poll loop that did not break. -/
def pollWorld (K : Consts) (D : Dev σ) (w : World σ) (n : Nat) : World σ :=
  (pollStep K D)^[n] w

/-- The status byte that the `k`-th status read of the poll loop returns
(`k = 1` is the first read), when the loop starts in `w` and the reads before
it did not break. -/
def statusRead (K : Consts) (D : Dev σ) (w : World σ) (k : Nat) : Nat :=
  (mirf_ld K D K.STATUS (pollWorld K D w (k - 1))).1

/-- What `n` turns of the poll loop that do not break do on the bus. -/
def pollTrace (K : Consts) : Nat → List Act
  | 0 => []
  | n + 1 => ldTrace K K.STATUS ++ Act.delay_ms 10 :: pollTrace K n

/-- The milliseconds of `_delay_ms` in a log. -/
def waited_ms : List Act → Nat
  | [] => 0
  | Act.delay_ms n :: l => n + waited_ms l
  | _ :: l => waited_ms l

/-! ## The primitives: log and pins -/

section Basics

variable (K : Consts) (D : Dev σ)

@[simp]
theorem mirf_ld_log (reg : Nat) (w : World σ) :
    (mirf_ld K D reg w).2.log = w.log ++ ldTrace K reg := by
  simp [mirf_ld, ldTrace, CHIP_SELECT_LO, CHIP_SELECT_HI, spi_transfer, _delay_us]

@[simp]
theorem mirf_st_log (reg value : Nat) (w : World σ) :
    (mirf_st K D reg value w).log = w.log ++ stTrace K reg value := by
  simp [mirf_st, stTrace, CHIP_SELECT_LO, CHIP_SELECT_HI, spi_transfer, _delay_us]

@[simp]
theorem mirf_ld_csn (reg : Nat) (w : World σ) : (mirf_ld K D reg w).2.csn = true := rfl

@[simp]
theorem mirf_st_csn (reg value : Nat) (w : World σ) :
    (mirf_st K D reg value w).csn = true := rfl

@[simp]
theorem mirf_st_config (reg value : Nat) (w : World σ) :
    (mirf_st K D reg value w).config = w.config := rfl

theorem spi_ntransfer_log (value : List Nat) (w : World σ) :
    (spi_ntransfer D value value.length w).2.log
      = w.log ++ value.map (fun b => Act.spi (b % 256)) := by
  induction value generalizing w with
  | nil => simp [spi_ntransfer]
  | cons b bs ih => simp [spi_ntransfer, ih, spi_transfer]

theorem spi_ntransfer_config (value : List Nat) (n : Nat) (w : World σ) :
    (spi_ntransfer D value n w).2.config = w.config := by
  induction n generalizing w value with
  | zero => simp [spi_ntransfer]
  | succ n ih => simp [spi_ntransfer, ih, spi_transfer]

theorem mirf_stm_log (reg : Nat) (value : List Nat) (w : World σ) :
    (mirf_stm K D reg value value.length w).2.log = w.log ++ stmTrace K reg value := by
  simp [mirf_stm, stmTrace, CHIP_SELECT_LO, CHIP_SELECT_HI, spi_transfer, _delay_us,
    spi_ntransfer_log]

@[simp]
theorem mirf_stm_config (reg : Nat) (value : List Nat) (n : Nat) (w : World σ) :
    (mirf_stm K D reg value n w).2.config = w.config := by
  simp [mirf_stm, CHIP_SELECT_LO, CHIP_SELECT_HI, spi_transfer, _delay_us, spi_ntransfer_config]

theorem array5_length (ini : List Nat) : (array5 ini).length = 5 := by
  simp [array5]

@[simp]
theorem pollStep_log (w : World σ) :
    (pollStep K D w).log = w.log ++ (ldTrace K K.STATUS ++ [Act.delay_ms 10]) := by
  simp [pollStep, _delay_ms]

theorem pollWorld_succ (w : World σ) (n : Nat) :
    pollWorld K D w (n + 1) = pollWorld K D (pollStep K D w) n := by
  simp [pollWorld]

theorem pollWorld_log (w : World σ) (n : Nat) :
    (pollWorld K D w n).log = w.log ++ pollTrace K n := by
  induction n generalizing w with
  | zero => simp [pollWorld, pollTrace]
  | succ n ih => rw [pollWorld_succ, ih]; simp [pollTrace]

theorem waited_ms_append (l1 l2 : List Act) :
    waited_ms (l1 ++ l2) = waited_ms l1 + waited_ms l2 := by
  induction l1 with
  | nil => simp [waited_ms]
  | cons a l ih => cases a <;> simp [waited_ms, ih, Nat.add_assoc]

theorem waited_ms_pollTrace (n : Nat) : waited_ms (pollTrace K n) = 10 * n := by
  induction n with
  | zero => rfl
  | succ n ih => simp [pollTrace, ldTrace, waited_ms, ih]; omega

/-! ## The poll loop, turn by turn -/

theorem loop_exit (t : Int) (ret : Option Nat) (w : World σ) (ht : ¬ t > 0) :
    mirf_write_loop K D t ret w = (ret, w) := by
  rw [mirf_write_loop]; simp [ht]

theorem loop_failed (t : Int) (ret : Option Nat) (w : World σ) (ht : t > 0)
    (h : (mirf_ld K D K.STATUS w).1 &&& _BV K.MAX_RT ≠ 0) :
    mirf_write_loop K D t ret w
      = (some K.RESULT_FAILED, mirf_st K D K.STATUS (_BV K.MAX_RT) (mirf_ld K D K.STATUS w).2) := by
  rw [mirf_write_loop]; simp [ht, h]

theorem loop_success (t : Int) (ret : Option Nat) (w : World σ) (ht : t > 0)
    (h1 : (mirf_ld K D K.STATUS w).1 &&& _BV K.MAX_RT = 0)
    (h2 : (mirf_ld K D K.STATUS w).1 &&& _BV K.TX_DS ≠ 0) :
    mirf_write_loop K D t ret w
      = (some K.RESULT_SUCCESS, mirf_st K D K.STATUS (_BV K.TX_DS) (mirf_ld K D K.STATUS w).2) := by
  rw [mirf_write_loop]; simp [ht, h1, h2]

theorem loop_continue (t : Int) (ret : Option Nat) (w : World σ) (ht : t > 0)
    (h1 : (mirf_ld K D K.STATUS w).1 &&& _BV K.MAX_RT = 0)
    (h2 : (mirf_ld K D K.STATUS w).1 &&& _BV K.TX_DS = 0) :
    mirf_write_loop K D t ret w = mirf_write_loop K D (t - 10) ret (pollStep K D w) := by
  rw [mirf_write_loop]
  have ht2 : ¬ t < 0 := by omega
  simp [ht, h1, h2, ht2, pollStep]

theorem statusRead_succ (w : World σ) (k : Nat) (hk : 1 ≤ k) :
    statusRead K D w (k + 1) = statusRead K D (pollStep K D w) k := by
  obtain ⟨m, rfl⟩ : ∃ m, k = m + 1 := ⟨k - 1, by omega⟩
  simp [statusRead, pollWorld_succ]

/-- While the reads `1..n` show neither flag and the budget allows `n` turns,
the loop is, after `n` turns, where it would be had it started `n` turns
later with `10 * n` less budget. -/
theorem loop_run (n : Nat) : ∀ (t : Int) (ret : Option Nat) (w : World σ),
    (10 * (n : Int) < t + 10) →
    (∀ j, 1 ≤ j → j ≤ n → statusRead K D w j &&& _BV K.MAX_RT = 0 ∧
      statusRead K D w j &&& _BV K.TX_DS = 0) →
    mirf_write_loop K D t ret w
      = mirf_write_loop K D (t - 10 * (n : Int)) ret (pollWorld K D w n) := by
  induction n with
  | zero => intro t ret w _ _; simp [pollWorld]
  | succ n ih =>
    intro t ret w ht h
    have h1 := h 1 (le_refl 1) (by omega)
    simp only [statusRead, Nat.sub_self, pollWorld, Function.iterate_zero, id_eq] at h1
    rw [loop_continue K D t ret w (by push_cast at ht; omega) h1.1 h1.2, pollWorld_succ]
    rw [ih (t - 10) ret (pollStep K D w) (by push_cast at ht; omega)]
    · congr 1; push_cast; ring
    · intro j hj1 hjn
      rw [← statusRead_succ K D w j hj1]
      exact h (j + 1) (by omega) (by omega)

end Basics

section Poll

variable (K : Consts) (D : Dev σ)

/-- The loop breaks with `RESULT_FAILED` at the first read that shows
`MAX_RT`, when no earlier read showed `TX_DS`. -/
theorem loop_first_max_rt (ret : Option Nat) (w : World σ) (k : Nat) (hk1 : 1 ≤ k)
    (hk50 : k ≤ 50) (hmax : statusRead K D w k &&& _BV K.MAX_RT ≠ 0)
    (hfirst : ∀ j, 1 ≤ j → j < k →
      statusRead K D w j &&& _BV K.MAX_RT = 0 ∧ statusRead K D w j &&& _BV K.TX_DS = 0) :
    mirf_write_loop K D 500 ret w
      = (some K.RESULT_FAILED,
         mirf_st K D K.STATUS (_BV K.MAX_RT) (mirf_ld K D K.STATUS (pollWorld K D w (k - 1))).2) := by
  rw [loop_run K D (k - 1) 500 ret w (by omega) (fun j h1 h2 => hfirst j h1 (by omega))]
  exact loop_failed K D _ ret _ (by omega) hmax

/-- The loop breaks with `RESULT_SUCCESS` at the first read that shows `TX_DS`,
when no read up to it showed `MAX_RT`. -/
theorem loop_first_tx_ds (ret : Option Nat) (w : World σ) (k : Nat) (hk1 : 1 ≤ k)
    (hk50 : k ≤ 50) (hds : statusRead K D w k &&& _BV K.TX_DS ≠ 0)
    (hnomax : ∀ j, 1 ≤ j → j ≤ k → statusRead K D w j &&& _BV K.MAX_RT = 0)
    (hfirst : ∀ j, 1 ≤ j → j < k → statusRead K D w j &&& _BV K.TX_DS = 0) :
    mirf_write_loop K D 500 ret w
      = (some K.RESULT_SUCCESS,
         mirf_st K D K.STATUS (_BV K.TX_DS) (mirf_ld K D K.STATUS (pollWorld K D w (k - 1))).2) := by
  rw [loop_run K D (k - 1) 500 ret w (by omega)
    (fun j h1 h2 => ⟨hnomax j h1 (by omega), hfirst j h1 (by omega)⟩)]
  exact loop_success K D _ ret _ (by omega) (hnomax k hk1 (le_refl k)) hds

/-- When none of the fifty reads shows a flag, the loop is left through its
guard after fifty turns, and `ret` is what it was. -/
theorem loop_silent (ret : Option Nat) (w : World σ)
    (h : ∀ j, 1 ≤ j → j ≤ 50 →
      statusRead K D w j &&& _BV K.MAX_RT = 0 ∧ statusRead K D w j &&& _BV K.TX_DS = 0) :
    mirf_write_loop K D 500 ret w = (ret, pollWorld K D w 50) := by
  rw [loop_run K D 50 500 ret w (by omega) h]
  exact loop_exit K D _ ret _ (by omega)

/-- With a budget of at most `10 * n` the loop makes `m ≤ n` full turns and
then either is left through its guard or, if `m < n`, breaks in turn `m + 1`
after clearing one flag. -/
theorem loop_bound (n : Nat) : ∀ (t : Int) (ret : Option Nat) (w : World σ),
    t ≤ 10 * (n : Int) →
    ∃ m, m ≤ n ∧
      (mirf_write_loop K D t ret w = (ret, pollWorld K D w m) ∨
       (m < n ∧ ∃ b r, mirf_write_loop K D t ret w
          = (some r, mirf_st K D K.STATUS (_BV b) (mirf_ld K D K.STATUS (pollWorld K D w m)).2))) := by
  induction n with
  | zero =>
    intro t ret w ht
    exact ⟨0, le_refl 0, Or.inl (loop_exit K D t ret w (by omega))⟩
  | succ n ih =>
    intro t ret w ht
    by_cases hpos : t > 0
    · by_cases h1 : (mirf_ld K D K.STATUS w).1 &&& _BV K.MAX_RT = 0
      · by_cases h2 : (mirf_ld K D K.STATUS w).1 &&& _BV K.TX_DS = 0
        · obtain ⟨m, hm, hcase⟩ := ih (t - 10) ret (pollStep K D w) (by push_cast at ht; omega)
          refine ⟨m + 1, by omega, ?_⟩
          rw [loop_continue K D t ret w hpos h1 h2, pollWorld_succ]
          rcases hcase with h | ⟨hlt, b, r, h⟩
          · exact Or.inl h
          · exact Or.inr ⟨by omega, b, r, h⟩
        · exact ⟨0, by omega, Or.inr ⟨by omega, K.TX_DS, K.RESULT_SUCCESS,
            loop_success K D t ret w hpos h1 h2⟩⟩
      · exact ⟨0, by omega, Or.inr ⟨by omega, K.MAX_RT, K.RESULT_FAILED,
          loop_failed K D t ret w hpos h1⟩⟩
    · exact ⟨0, by omega, Or.inl (loop_exit K D t ret w hpos)⟩

/-- Every status read from a steady device returns its byte. -/
theorem steady_status (b : Nat) (w : World Unit) (j : Nat) :
    statusRead K (steady b) w j = b % 256 := by
  simp [statusRead, mirf_ld, spi_transfer, steady]

end Poll

/-! ## The transmit state machine -/

/-- C1: if the k-th status read of the poll loop (1 ≤ k ≤ 50) is the first to
show MAX_RT and no earlier read showed TX_DS, whatever else the k-th read
shows, then `mirf_write` returns RESULT_FAILED; the world it returns is the
one reached by k - 1 full turns, one more status read, the write of exactly
`_BV(MAX_RT)` to STATUS, and the clean-up; on the bus the loop did exactly
that: k status reads, the first k - 1 each followed by the 10 ms sleep, then
the one status write. -/
theorem mirf_write_failed (K : Consts) (D : Dev σ) (M : TxMode σ) (value : List Nat)
    (len : Nat) (w : World σ) (k : Nat) (hk1 : 1 ≤ k) (hk50 : k ≤ 50)
    (hmax : statusRead K D (mirf_write_send K D M value len w).2 k &&& _BV K.MAX_RT ≠ 0)
    (hfirst : ∀ j, 1 ≤ j → j < k →
      statusRead K D (mirf_write_send K D M value len w).2 j &&& _BV K.MAX_RT = 0 ∧
      statusRead K D (mirf_write_send K D M value len w).2 j &&& _BV K.TX_DS = 0) :
    (mirf_write K D M value len w).1 = some K.RESULT_FAILED ∧
    (mirf_write K D M value len w).2.2
      = M.TRANSMIT_MODE_OFF (CHIP_ENABLE_LO D (mirf_st K D K.STATUS (_BV K.MAX_RT)
          (mirf_ld K D K.STATUS
            (pollWorld K D (mirf_write_send K D M value len w).2 (k - 1))).2)) ∧
    (mirf_write_loop K D 500 none (mirf_write_send K D M value len w).2).2.log
      = (mirf_write_send K D M value len w).2.log ++ pollTrace K (k - 1)
          ++ ldTrace K K.STATUS ++ stTrace K K.STATUS (_BV K.MAX_RT) := by
  have h := loop_first_max_rt K D none (mirf_write_send K D M value len w).2 k hk1 hk50 hmax hfirst
  refine ⟨?_, ?_, ?_⟩
  · simp [mirf_write, h]
  · simp [mirf_write, h]
  · rw [h]; simp [pollWorld_log]

/-- C3: if the k-th status read of the poll loop (1 ≤ k ≤ 50) is the first to
show TX_DS and none of the reads 1..k shows MAX_RT, then `mirf_write` returns
RESULT_SUCCESS; the world it returns is the one reached by k - 1 full turns,
one more status read, the write of exactly `_BV(TX_DS)` to STATUS, and the
clean-up; on the bus the loop did exactly k status reads and that one write. -/
theorem mirf_write_success (K : Consts) (D : Dev σ) (M : TxMode σ) (value : List Nat)
    (len : Nat) (w : World σ) (k : Nat) (hk1 : 1 ≤ k) (hk50 : k ≤ 50)
    (hds : statusRead K D (mirf_write_send K D M value len w).2 k &&& _BV K.TX_DS ≠ 0)
    (hnomax : ∀ j, 1 ≤ j → j ≤ k →
      statusRead K D (mirf_write_send K D M value len w).2 j &&& _BV K.MAX_RT = 0)
    (hfirst : ∀ j, 1 ≤ j → j < k →
      statusRead K D (mirf_write_send K D M value len w).2 j &&& _BV K.TX_DS = 0) :
    (mirf_write K D M value len w).1 = some K.RESULT_SUCCESS ∧
    (mirf_write K D M value len w).2.2
      = M.TRANSMIT_MODE_OFF (CHIP_ENABLE_LO D (mirf_st K D K.STATUS (_BV K.TX_DS)
          (mirf_ld K D K.STATUS
            (pollWorld K D (mirf_write_send K D M value len w).2 (k - 1))).2)) ∧
    (mirf_write_loop K D 500 none (mirf_write_send K D M value len w).2).2.log
      = (mirf_write_send K D M value len w).2.log ++ pollTrace K (k - 1)
          ++ ldTrace K K.STATUS ++ stTrace K K.STATUS (_BV K.TX_DS) := by
  have h := loop_first_tx_ds K D none (mirf_write_send K D M value len w).2 k hk1 hk50 hds
    hnomax hfirst
  refine ⟨?_, ?_, ?_⟩
  · simp [mirf_write, h]
  · simp [mirf_write, h]
  · rw [h]; simp [pollWorld_log]

set_option maxRecDepth 100000 in
/-- Witness for C1: the scripted device whose second status read shows MAX_RT
together with TX_DS (0x30); `mirf_write` returns RESULT_FAILED. -/
theorem mirf_write_failed_witness :
    statusRead nRF24L01 scripted
        (mirf_write_send nRF24L01 scripted (txMode nRF24L01 scripted) demoPayload 8
          (World.start (scriptSecond 0x30))).2 2 = 0x30 ∧
    (mirf_write nRF24L01 scripted (txMode nRF24L01 scripted) demoPayload 8
        (World.start (scriptSecond 0x30))).1 = some nRF24L01.RESULT_FAILED :=
  ⟨by decide,
   (mirf_write_failed nRF24L01 scripted (txMode nRF24L01 scripted) demoPayload 8
      (World.start (scriptSecond 0x30)) 2 (by decide) (by decide) (by decide)
      (by intro j h1 h2
          obtain rfl : j = 1 := by omega
          decide)).1⟩

set_option maxRecDepth 100000 in
/-- Witness for C3: the scripted device whose second status read shows TX_DS
alone (0x20); `mirf_write` returns RESULT_SUCCESS. -/
theorem mirf_write_success_witness :
    statusRead nRF24L01 scripted
        (mirf_write_send nRF24L01 scripted (txMode nRF24L01 scripted) demoPayload 8
          (World.start (scriptSecond 0x20))).2 2 = 0x20 ∧
    (mirf_write nRF24L01 scripted (txMode nRF24L01 scripted) demoPayload 8
        (World.start (scriptSecond 0x20))).1 = some nRF24L01.RESULT_SUCCESS :=
  ⟨by decide,
   (mirf_write_success nRF24L01 scripted (txMode nRF24L01 scripted) demoPayload 8
      (World.start (scriptSecond 0x20)) 2 (by decide) (by decide) (by decide)
      (by intro j h1 h2
          have h3 : j = 1 ∨ j = 2 := by omega
          rcases h3 with rfl | rfl <;> decide)
      (by intro j h1 h2
          obtain rfl : j = 1 := by omega
          decide)).1⟩

/-- C2 (the code at the failing input): against a radio that never raises a
flag (every byte it answers is 0x0E), with the demo payload, `mirf_write` makes
exactly fifty turns of the poll loop (fifty status reads, each followed by the
10 ms sleep, and no status write), leaves the loop through its guard, and
returns `ret` without ever having assigned it: it does not return
RESULT_TIMEOUT. -/
theorem mirf_write_silent_unassigned :
    (mirf_write nRF24L01 (steady 0x0E) (txMode nRF24L01 (steady 0x0E)) demoPayload 8
        (World.start ())).1 = none ∧
    (mirf_write nRF24L01 (steady 0x0E) (txMode nRF24L01 (steady 0x0E)) demoPayload 8
        (World.start ())).1 ≠ some nRF24L01.RESULT_TIMEOUT ∧
    (mirf_write_loop nRF24L01 (steady 0x0E) 500 none
        (mirf_write_send nRF24L01 (steady 0x0E) (txMode nRF24L01 (steady 0x0E)) demoPayload 8
          (World.start ())).2).2.log
      = (mirf_write_send nRF24L01 (steady 0x0E) (txMode nRF24L01 (steady 0x0E)) demoPayload 8
          (World.start ())).2.log ++ pollTrace nRF24L01 50 := by
  have h := loop_silent nRF24L01 (steady 0x0E) none
    (mirf_write_send nRF24L01 (steady 0x0E) (txMode nRF24L01 (steady 0x0E)) demoPayload 8
      (World.start ())).2
    (fun j _ _ => by rw [steady_status]; exact ⟨by decide, by decide⟩)
  refine ⟨?_, ?_, ?_⟩
  · simp [mirf_write, h]
  · simp [mirf_write, h]
  · rw [h]; exact pollWorld_log nRF24L01 (steady 0x0E) _ 50

/-- C4: for every payload and every device (so on each of the three ways out
of the poll loop), the world `mirf_write` returns is `TRANSMIT_MODE_OFF` applied
to a world in which chip-enable is low and the host's last action was to pull
it low; when the macro leaves the chip-enable line alone, chip-enable is low
on return. -/
theorem mirf_write_cleanup (K : Consts) (D : Dev σ) (M : TxMode σ) (value : List Nat)
    (len : Nat) (w : World σ)
    (hM : ∀ v : World σ, (M.TRANSMIT_MODE_OFF v).ce = v.ce) :
    (∃ v : World σ, (mirf_write K D M value len w).2.2 = M.TRANSMIT_MODE_OFF v ∧
        v.ce = false ∧ v.log.getLast? = some (Act.ce false) ∧
        v = CHIP_ENABLE_LO D
          (mirf_write_loop K D 500 none (mirf_write_send K D M value len w).2).2) ∧
    (mirf_write K D M value len w).2.2.ce = false := by
  refine ⟨⟨_, rfl, rfl, ?_, rfl⟩, ?_⟩
  · simp [CHIP_ENABLE_LO]
  · simp [mirf_write, hM, CHIP_ENABLE_LO]

/-- Witness for C4: with the macros of `txMode`, which leave chip-enable
alone, against the radio that never raises a flag. -/
theorem mirf_write_cleanup_witness :
    (mirf_write nRF24L01 (steady 0x0E) (txMode nRF24L01 (steady 0x0E)) demoPayload 8
        (World.start ())).2.2.ce = false :=
  (mirf_write_cleanup nRF24L01 (steady 0x0E) (txMode nRF24L01 (steady 0x0E)) demoPayload 8
    (World.start ()) (fun _ => rfl)).2

/-- C10: whatever the device answers, the poll loop of `mirf_write` ends: it
makes m ≤ 50 full turns (status read, 10 ms sleep) and then either is left
through its guard without another read, or, with m < 50, breaks in turn m + 1
after one more status read and one status write; so it reads the status
register at most 50 times and sleeps at most 500 ms.  The budget is 500 at
the start; a turn that does not break goes on with the budget less 10; a
budget that is not positive ends the loop. -/
theorem mirf_write_loop_bounded (K : Consts) (D : Dev σ) (M : TxMode σ) (value : List Nat)
    (len : Nat) (w : World σ) :
    (∃ m, m ≤ 50 ∧
      ((mirf_write_loop K D 500 none (mirf_write_send K D M value len w).2).2.log
          = (mirf_write_send K D M value len w).2.log ++ pollTrace K m ∨
       (m < 50 ∧ ∃ b,
        (mirf_write_loop K D 500 none (mirf_write_send K D M value len w).2).2.log
          = (mirf_write_send K D M value len w).2.log ++ pollTrace K m
              ++ ldTrace K K.STATUS ++ stTrace K K.STATUS (_BV b))) ∧
      waited_ms (mirf_write_loop K D 500 none (mirf_write_send K D M value len w).2).2.log
        = waited_ms (mirf_write_send K D M value len w).2.log + 10 * m) ∧
    (mirf_write K D M value len w).1
      = (mirf_write_loop K D 500 none (mirf_write_send K D M value len w).2).1 ∧
    (∀ (t : Int) (ret : Option Nat) (v : World σ), ¬ t > 0 →
      mirf_write_loop K D t ret v = (ret, v)) ∧
    (∀ (t : Int) (ret : Option Nat) (v : World σ), t > 0 →
      (mirf_ld K D K.STATUS v).1 &&& _BV K.MAX_RT = 0 →
      (mirf_ld K D K.STATUS v).1 &&& _BV K.TX_DS = 0 →
      mirf_write_loop K D t ret v
        = mirf_write_loop K D (t - 10) ret (_delay_ms D 10 (mirf_ld K D K.STATUS v).2)) := by
  refine ⟨?_, rfl, loop_exit K D, loop_continue K D⟩
  obtain ⟨m, hm, hcase⟩ := loop_bound K D 50 500 none (mirf_write_send K D M value len w).2
    (by norm_num)
  refine ⟨m, hm, ?_, ?_⟩
  · rcases hcase with h | ⟨hlt, b, r, h⟩
    · left; rw [h]; exact pollWorld_log K D _ m
    · right; refine ⟨hlt, b, ?_⟩; rw [h]; simp [pollWorld_log]
  · rcases hcase with h | ⟨hlt, b, r, h⟩
    · rw [h]; simp [pollWorld_log, waited_ms_append, waited_ms_pollTrace]
    · rw [h]
      simp [pollWorld_log, waited_ms_append, waited_ms_pollTrace, ldTrace, stTrace, waited_ms]

/-! ## Bytes and bits -/

theorem or_mod_256 (a b : Nat) : (a % 256 ||| b) % 256 = (a ||| b) % 256 := by
  apply Nat.eq_of_testBit_eq
  intro i
  have h : (256 : Nat) = 2 ^ 8 := by norm_num
  simp only [h, Nat.testBit_mod_two_pow, Nat.testBit_or]
  by_cases hi : i < 8 <;> simp [hi]

theorem or_and_mask (W M r : Nat) (h : W &&& M = 0) : (W ||| (M &&& r)) &&& M = M &&& r := by
  apply Nat.eq_of_testBit_eq
  intro i
  have hi := congrArg (fun x => Nat.testBit x i) h
  simp only [Nat.testBit_and, Nat.zero_testBit] at hi
  simp only [Nat.testBit_and, Nat.testBit_or]
  revert hi
  cases W.testBit i <;> cases M.testBit i <;> cases r.testBit i <;> simp

theorem or_xor_mask (W M r : Nat) (h : W &&& M = 0) : (W ||| (M &&& r)) ^^^ (M &&& r) = W := by
  apply Nat.eq_of_testBit_eq
  intro i
  have hi := congrArg (fun x => Nat.testBit x i) h
  simp only [Nat.testBit_and, Nat.zero_testBit] at hi
  simp only [Nat.testBit_and, Nat.testBit_or, Nat.testBit_xor]
  revert hi
  cases W.testBit i <;> cases M.testBit i <;> cases r.testBit i <;> simp

theorem and_BV_eq_zero (x b : Nat) : x &&& _BV b = 0 ↔ x.testBit b = false := by
  rw [_BV, Nat.one_shiftLeft]
  constructor
  · intro h
    have hi := congrArg (fun y => Nat.testBit y b) h
    simpa [Nat.testBit_and, Nat.testBit_two_pow_self] using hi
  · intro h
    apply Nat.eq_of_testBit_eq
    intro i
    simp only [Nat.testBit_and, Nat.testBit_two_pow, Nat.zero_testBit]
    by_cases hb : b = i
    · subst hb; simp [h]
    · simp [hb]

theorem BV_mod (b : Nat) (h : b < 8) : _BV b % 256 = _BV b := by
  apply Nat.mod_eq_of_lt
  rw [_BV, Nat.one_shiftLeft]
  calc 2 ^ b < 2 ^ 8 := Nat.pow_lt_pow_right (by norm_num) h
    _ = 256 := by norm_num

theorem testBit_BV (b i : Nat) : (_BV b).testBit i = decide (b = i) := by
  rw [_BV, Nat.one_shiftLeft, Nat.testBit_two_pow]

/-! ## The simulated chip, transaction by transaction -/

section Sim

variable (K : Consts)

theorem wcmd_mod (hK : K.WF) (reg : Nat) :
    (K.W_REGISTER ||| (K.REGISTER_MASK &&& reg)) % 256
      = K.W_REGISTER ||| (K.REGISTER_MASK &&& reg) := by
  obtain ⟨_, hW, hM, _⟩ := hK
  have h1 : K.REGISTER_MASK &&& reg < 2 ^ 8 := by
    rw [Nat.and_comm]; exact Nat.and_lt_two_pow reg (by simpa using hM)
  exact Nat.mod_eq_of_lt (by simpa using Nat.or_lt_two_pow (by simpa using hW) h1)

theorem rcmd_mod (hK : K.WF) (reg : Nat) :
    (K.R_REGISTER ||| (K.REGISTER_MASK &&& reg)) % 256
      = K.R_REGISTER ||| (K.REGISTER_MASK &&& reg) := by
  obtain ⟨hR, _, hM, _⟩ := hK
  have h1 : K.REGISTER_MASK &&& reg < 2 ^ 8 := by
    rw [Nat.and_comm]; exact Nat.and_lt_two_pow reg (by simpa using hM)
  exact Nat.mod_eq_of_lt (by simpa using Nat.or_lt_two_pow (by simpa using hR) h1)

theorem decode_wcmd (hK : K.WF) (reg : Nat) :
    Chip.decode K (K.W_REGISTER ||| (K.REGISTER_MASK &&& reg))
      = Cmd.w_register (K.REGISTER_MASK &&& reg) := by
  obtain ⟨_, _, _, _, hWM, hRW, _⟩ := hK
  simp [Chip.decode, or_and_mask _ _ _ hWM, or_xor_mask _ _ _ hWM, Ne.symm hRW]

theorem decode_rcmd (hK : K.WF) (reg : Nat) :
    Chip.decode K (K.R_REGISTER ||| (K.REGISTER_MASK &&& reg))
      = Cmd.r_register (K.REGISTER_MASK &&& reg) := by
  obtain ⟨_, _, _, hRM, _, _, _⟩ := hK
  simp [Chip.decode, or_and_mask _ _ _ hRM, or_xor_mask _ _ _ hRM]

theorem decode_flush_tx (hK : K.WF) : Chip.decode K K.FLUSH_TX = Cmd.flush_tx := by
  obtain ⟨_, _, _, _, _, _, hc, hnd, _⟩ := hK
  have h := hc K.FLUSH_TX (by simp)
  simp only [List.nodup_cons, List.mem_cons, List.mem_singleton, not_or] at hnd
  have h1 : K.FLUSH_TX ≠ K.R_RX_PAYLOAD := fun e => hnd.1.2.1 e.symm
  have h2 : K.FLUSH_TX ≠ K.W_TX_PAYLOAD := fun e => hnd.2.1.1 e.symm
  simp [Chip.decode, h.2.1, h.2.2, h1, h2]

theorem decode_r_rx_payload (hK : K.WF) : Chip.decode K K.R_RX_PAYLOAD = Cmd.r_rx_payload := by
  obtain ⟨_, _, _, _, _, _, hc, _⟩ := hK
  have h := hc K.R_RX_PAYLOAD (by simp)
  simp [Chip.decode, h.2.1, h.2.2]

/-- A rising edge of chip-select leaves the simulated chip with no
transaction open. -/
theorem select_hi_idle (c : Chip) : (Chip.select true c).selected = false := by
  cases hs : c.selected
  · simp [Chip.select, hs]
  · simp only [Chip.select, hs, if_true]
    split <;> rfl

/-- An edge of chip-select does not touch the registers. -/
theorem select_regs (level : Bool) (c : Chip) : (Chip.select level c).regs = c.regs := by
  unfold Chip.select
  repeat' split
  all_goals rfl

/-- After any `mirf_st` the simulated chip has no transaction open. -/
theorem sim_st_idle (reg value : Nat) (w : World Chip) :
    (mirf_st K (sim K) reg value w).chip.selected = false :=
  select_hi_idle _

/-- What `mirf_st` does to the simulated chip: one store at byte 0 of the
addressed register. -/
theorem sim_st_chip (hK : K.WF) (reg value : Nat) (w : World Chip)
    (hidle : w.chip.selected = false) :
    (mirf_st K (sim K) reg value w).chip
      = { Chip.store K (K.REGISTER_MASK &&& reg) 0 (value % 256) w.chip with
          selected := false, cmd := none, idx := 0, pending := [] } := by
  simp [mirf_st, CHIP_SELECT_LO, CHIP_SELECT_HI, spi_transfer, _delay_us, sim, Chip.select,
    Chip.exchange, Chip.command, wcmd_mod K hK, decode_wcmd K hK, hidle, Chip.store]
  split <;> rfl

/-- What `mirf_ld` reads from the simulated chip: byte 0 of the addressed
register; the chip is left as it was, with no transaction open. -/
theorem sim_ld (hK : K.WF) (reg : Nat) (w : World Chip) (hidle : w.chip.selected = false) :
    (mirf_ld K (sim K) reg w).1 = Chip.load K (K.REGISTER_MASK &&& reg) 0 w.chip % 256 ∧
    (mirf_ld K (sim K) reg w).2.chip
      = { w.chip with selected := false, cmd := none, idx := 0, pending := [] } := by
  simp [mirf_ld, CHIP_SELECT_LO, CHIP_SELECT_HI, spi_transfer, _delay_us, sim, Chip.select,
    Chip.exchange, Chip.command, rcmd_mod K hK, decode_rcmd K hK, hidle, Chip.load]

/-- A store never raises a bit of the status byte. -/
theorem store_status_mono (r i v j : Nat) (c : Chip)
    (h : (Chip.store K r i v c).status.testBit j = true) : c.status.testBit j = true := by
  unfold Chip.store at h
  split at h
  · simp only [Nat.testBit_xor, Nat.testBit_and] at h
    revert h
    cases c.status.testBit j <;> simp
  · exact h

/-- A store to the status register of a value with flag bit `b` set clears
bit `b` of the status byte. -/
theorem store_status_clear (b v : Nat) (c : Chip) (hv : v.testBit b = true)
    (hb : (Chip.flags K).testBit b = true) :
    (Chip.store K (K.REGISTER_MASK &&& K.STATUS) 0 v c).status.testBit b = false := by
  simp [Chip.store, hv, hb]

theorem flags_RX_DR : (Chip.flags K).testBit K.RX_DR = true := by
  simp [Chip.flags, testBit_BV]

theorem flags_TX_DS : (Chip.flags K).testBit K.TX_DS = true := by
  simp [Chip.flags, testBit_BV]

theorem flags_MAX_RT : (Chip.flags K).testBit K.MAX_RT = true := by
  simp [Chip.flags, testBit_BV]

/-- A `mirf_st` never raises a bit of the simulated chip's status byte. -/
theorem sim_st_status_mono (hK : K.WF) (reg value j : Nat) (w : World Chip)
    (hidle : w.chip.selected = false)
    (h : (mirf_st K (sim K) reg value w).chip.status.testBit j = true) :
    w.chip.status.testBit j = true := by
  rw [sim_st_chip K hK reg value w hidle] at h
  exact store_status_mono K _ _ _ j _ h

/-- Writing `_BV(b)` to STATUS clears flag `b` of the simulated chip. -/
theorem sim_st_status_clear (hK : K.WF) (b : Nat) (w : World Chip)
    (hidle : w.chip.selected = false) (hb8 : b < 8)
    (hb : (Chip.flags K).testBit b = true) :
    (mirf_st K (sim K) K.STATUS (_BV b) w).chip.status.testBit b = false := by
  rw [sim_st_chip K hK K.STATUS (_BV b) w hidle]
  exact store_status_clear K b _ _ (by rw [BV_mod b hb8, testBit_BV]; simp) hb

theorem mirf_stm_log5 (D : Dev σ) (reg : Nat) (ini : List Nat) (w : World σ) :
    (mirf_stm K D reg (array5 ini) 5 w).2.log = w.log ++ stmTrace K reg (array5 ini) := by
  have h := mirf_stm_log K D reg (array5 ini) w
  rwa [array5_length] at h

theorem mirf_init_config_eq (D : Dev σ) (w : World σ) :
    (mirf_init K D w).config = (_BV K.EN_CRC ||| _BV K.CRCO ||| _BV K.PRIM_RX) % 256 := by
  simp [mirf_init, or_mod_256]

theorem mirf_init_log (D : Dev σ) (w : World σ) :
    (mirf_init K D w).log
      = w.log ++ [Act.ce false, Act.csn true]
        ++ stTrace K K.EN_AA 0x01 ++ stTrace K K.SETUP_RETR 0x3F
        ++ stTrace K K.EN_RXADDR 0x01 ++ stTrace K K.SETUP_AW 0x03
        ++ stTrace K K.RF_CH 0x03 ++ stTrace K K.RF_SETUP 0x06
        ++ stmTrace K K.RX_ADDR_P0 (array5 K.mirf_RX_ADDR) ++ stTrace K K.RX_PW_P0 8
        ++ stTrace K K.STATUS (_BV K.RX_DR) ++ stTrace K K.STATUS (_BV K.TX_DS)
        ++ stTrace K K.STATUS (_BV K.MAX_RT)
        ++ stTrace K K.CONFIG (_BV K.EN_CRC ||| _BV K.CRCO ||| _BV K.PRIM_RX ||| _BV K.PWR_UP) := by
  have hc : ∀ a b c d : Nat, (((a % 256 ||| b) % 256 ||| c) % 256 ||| d) % 256
      = (a ||| b ||| c ||| d) % 256 := by
    intro a b c d
    simp only [or_mod_256]
  have hlast : ∀ v : Nat, stTrace K K.CONFIG v = stTrace K K.CONFIG (v % 256) := by
    intro v; simp [stTrace]
  rw [hlast (_BV K.EN_CRC ||| _BV K.CRCO ||| _BV K.PRIM_RX ||| _BV K.PWR_UP), ← hc]
  simp [mirf_init, mirf_stm_log5, CHIP_ENABLE_LO, CHIP_SELECT_HI, stTrace]

set_option maxRecDepth 20000 in
/-- After `mirf_init` the three flags of the simulated chip are clear. -/
theorem sim_init_flags (hK : K.WF) (v : World Chip) :
    (mirf_init K (sim K) v).chip.status.testBit K.RX_DR = false ∧
    (mirf_init K (sim K) v).chip.status.testBit K.TX_DS = false ∧
    (mirf_init K (sim K) v).chip.status.testBit K.MAX_RT = false := by
  obtain ⟨_, _, _, _, _, _, _, _, h6, h5, h4, _⟩ := id hK
  -- the world before the three status writes
  obtain ⟨u, x, y, hu, hinit⟩ : ∃ (u : World Chip) (x y : Nat), u.chip.selected = false ∧
      mirf_init K (sim K) v
        = mirf_st K (sim K) K.CONFIG x
            { mirf_st K (sim K) K.STATUS (_BV K.MAX_RT)
                (mirf_st K (sim K) K.STATUS (_BV K.TX_DS)
                  (mirf_st K (sim K) K.STATUS (_BV K.RX_DR) u)) with config := y } := by
    unfold mirf_init
    exact ⟨_, _, _, sim_st_idle K K.RX_PW_P0 8 _, rfl⟩
  rw [hinit]
  set u1 := mirf_st K (sim K) K.STATUS (_BV K.RX_DR) u with hu1
  set u2 := mirf_st K (sim K) K.STATUS (_BV K.TX_DS) u1 with hu2
  set u3 := mirf_st K (sim K) K.STATUS (_BV K.MAX_RT) u2 with hu3
  have i1 : u1.chip.selected = false := sim_st_idle K _ _ _
  have i2 : u2.chip.selected = false := sim_st_idle K _ _ _
  have i3 : ({ u3 with config := y } : World Chip).chip.selected = false := sim_st_idle K _ _ _
  have c1 : u1.chip.status.testBit K.RX_DR = false :=
    sim_st_status_clear K hK K.RX_DR u hu h6 (flags_RX_DR K)
  have c2 : u2.chip.status.testBit K.TX_DS = false :=
    sim_st_status_clear K hK K.TX_DS u1 i1 h5 (flags_TX_DS K)
  have c3 : u3.chip.status.testBit K.MAX_RT = false :=
    sim_st_status_clear K hK K.MAX_RT u2 i2 h4 (flags_MAX_RT K)
  have keep : ∀ (reg value j : Nat) (x : World Chip), x.chip.selected = false →
      x.chip.status.testBit j = false →
      (mirf_st K (sim K) reg value x).chip.status.testBit j = false := by
    intro reg value j x hx hj
    by_contra hne
    have := sim_st_status_mono K hK reg value j x hx (by simpa using hne)
    simp [hj] at this
  refine ⟨?_, ?_, ?_⟩
  · exact keep _ _ _ _ i3 (keep _ _ _ _ i2 (keep _ _ _ _ i1 c1))
  · exact keep _ _ _ _ i3 (keep _ _ _ _ i2 c2)
  · exact keep _ _ _ _ i3 c3

end Sim

/-! ## The configuration sequencer -/

set_option maxRecDepth 100000 in
/-- C5 (counterexample): with the nRF24L01 constants, after `mirf_init` on a
simulated chip out of reset, the last bus transaction wrote 0x0F to CONFIG and the
chip's CONFIG register holds 0x0F, while `config` is 0x0D: the shadow byte is
not the byte written. -/
theorem mirf_init_shadow_differs :
    (mirf_init nRF24L01 (sim nRF24L01) (World.start Chip.reset)).config = 0x0D ∧
    (mirf_init nRF24L01 (sim nRF24L01) (World.start Chip.reset)).chip.regs nRF24L01.CONFIG 0
      = 0x0F ∧
    (mirf_init nRF24L01 (sim nRF24L01) (World.start Chip.reset)).log.drop 61
      = stTrace nRF24L01 nRF24L01.CONFIG 0x0F ∧
    (mirf_init nRF24L01 (sim nRF24L01) (World.start Chip.reset)).config
      ≠ (mirf_init nRF24L01 (sim nRF24L01) (World.start Chip.reset)).chip.regs
          nRF24L01.CONFIG 0 := by
  refine ⟨by decide, by decide, by decide, by decide⟩

/-- C5 (amended): immediately after `mirf_init` returns, `config` holds the
three bits EN_CRC, CRCO and PRIM_RX, and the last thing `mirf_init` did on the
bus was to write `config | _BV(PWR_UP)` to CONFIG: the shadow byte is the byte
written but for the power-up bit, which is OR-ed in at the write only (when
PWR_UP is a bit of the byte other than those three, it is clear in `config`,
set in the byte written, and the two agree in every other bit). -/
theorem mirf_init_shadow (K : Consts) (D : Dev σ) (w : World σ) :
    (mirf_init K D w).config = (_BV K.EN_CRC ||| _BV K.CRCO ||| _BV K.PRIM_RX) % 256 ∧
    (∃ l, (mirf_init K D w).log
      = l ++ stTrace K K.CONFIG ((mirf_init K D w).config ||| _BV K.PWR_UP)) ∧
    (K.PWR_UP < 8 → K.PWR_UP ≠ K.EN_CRC → K.PWR_UP ≠ K.CRCO → K.PWR_UP ≠ K.PRIM_RX →
      (mirf_init K D w).config.testBit K.PWR_UP = false ∧
      (((mirf_init K D w).config ||| _BV K.PWR_UP) % 256).testBit K.PWR_UP = true ∧
      ∀ i, i ≠ K.PWR_UP →
        (((mirf_init K D w).config ||| _BV K.PWR_UP) % 256).testBit i
          = (mirf_init K D w).config.testBit i) := by
  have h256 : (256 : Nat) = 2 ^ 8 := by norm_num
  refine ⟨mirf_init_config_eq K D w, ?_, ?_⟩
  · have h : stTrace K K.CONFIG ((mirf_init K D w).config ||| _BV K.PWR_UP)
        = stTrace K K.CONFIG
            (_BV K.EN_CRC ||| _BV K.CRCO ||| _BV K.PRIM_RX ||| _BV K.PWR_UP) := by
      simp [stTrace, mirf_init_config_eq, or_mod_256]
    rw [h, mirf_init_log]
    exact ⟨_, rfl⟩
  · intro h8 h1 h2 h3
    rw [mirf_init_config_eq]
    simp only [h256, Nat.testBit_mod_two_pow, Nat.testBit_or, testBit_BV]
    refine ⟨?_, ?_, ?_⟩
    · simp [Ne.symm h1, Ne.symm h2, Ne.symm h3]
    · simp [h8]
    · intro i hi
      simp [Ne.symm hi]

/-- C9: `mirf_init` does, in this order and nothing else: chip-enable low,
chip-select high; the writes of 0x01 to EN_AA, 0x3F to SETUP_RETR, 0x01 to
EN_RXADDR, 0x03 to SETUP_AW, 0x03 to RF_CH, 0x06 to RF_SETUP, the five bytes
of the receive address to RX_ADDR_P0, 8 to RX_PW_P0; the writes of `_BV(RX_DR)`,
`_BV(TX_DS)` and `_BV(MAX_RT)` to STATUS; and last the write of
EN_CRC | CRCO | PRIM_RX | PWR_UP to CONFIG.  On the simulated chip, whose
status flags are write-1-to-clear, all three flags are clear afterwards,
whatever state the chip was in. -/
theorem mirf_init_sequence (K : Consts) (hK : K.WF) (D : Dev σ) (w : World σ)
    (v : World Chip) :
    (mirf_init K D w).log
      = w.log ++ [Act.ce false, Act.csn true]
        ++ stTrace K K.EN_AA 0x01 ++ stTrace K K.SETUP_RETR 0x3F
        ++ stTrace K K.EN_RXADDR 0x01 ++ stTrace K K.SETUP_AW 0x03
        ++ stTrace K K.RF_CH 0x03 ++ stTrace K K.RF_SETUP 0x06
        ++ stmTrace K K.RX_ADDR_P0 (array5 K.mirf_RX_ADDR) ++ stTrace K K.RX_PW_P0 8
        ++ stTrace K K.STATUS (_BV K.RX_DR) ++ stTrace K K.STATUS (_BV K.TX_DS)
        ++ stTrace K K.STATUS (_BV K.MAX_RT)
        ++ stTrace K K.CONFIG (_BV K.EN_CRC ||| _BV K.CRCO ||| _BV K.PRIM_RX ||| _BV K.PWR_UP) ∧
    (mirf_init K (sim K) v).chip.status &&& _BV K.RX_DR = 0 ∧
    (mirf_init K (sim K) v).chip.status &&& _BV K.TX_DS = 0 ∧
    (mirf_init K (sim K) v).chip.status &&& _BV K.MAX_RT = 0 := by
  obtain ⟨h1, h2, h3⟩ := sim_init_flags K hK v
  exact ⟨mirf_init_log K D w, (and_BV_eq_zero _ _).2 h1, (and_BV_eq_zero _ _).2 h2,
    (and_BV_eq_zero _ _).2 h3⟩

/-- Witness for C9: the nRF24L01 constants and a simulated chip that starts with
all three flags raised. -/
theorem mirf_init_sequence_witness :
    nRF24L01.WF ∧
    (World.start Chip.flagged).chip.status = 0x70 ∧
    (mirf_init nRF24L01 (sim nRF24L01) (World.start Chip.flagged)).chip.status
      &&& _BV nRF24L01.RX_DR = 0 ∧
    (mirf_init nRF24L01 (sim nRF24L01) (World.start Chip.flagged)).chip.status
      &&& _BV nRF24L01.TX_DS = 0 ∧
    (mirf_init nRF24L01 (sim nRF24L01) (World.start Chip.flagged)).chip.status
      &&& _BV nRF24L01.MAX_RT = 0 :=
  ⟨by decide, rfl,
   (mirf_init_sequence nRF24L01 (by decide) (sim nRF24L01) (World.start Chip.flagged)
      (World.start Chip.flagged)).2⟩

/-! ## The register access layer against the simulated chip -/

/-- C7: on the simulated chip with no transaction open, for every register
address other than that of STATUS (the one register with side effects) and
every 8-bit value v, `mirf_st(reg, v)` followed by `mirf_ld(reg)` returns v,
and after each of the two calls chip-select is high and the chip has no
transaction open. -/
theorem mirf_st_ld_roundtrip (K : Consts) (hK : K.WF) (reg v : Nat) (w : World Chip)
    (hidle : w.chip.selected = false)
    (hreg : K.REGISTER_MASK &&& reg ≠ K.REGISTER_MASK &&& K.STATUS) (hv : v < 256) :
    (mirf_ld K (sim K) reg (mirf_st K (sim K) reg v w)).1 = v ∧
    (mirf_st K (sim K) reg v w).csn = true ∧
    (mirf_st K (sim K) reg v w).chip.selected = false ∧
    (mirf_ld K (sim K) reg (mirf_st K (sim K) reg v w)).2.csn = true ∧
    (mirf_ld K (sim K) reg (mirf_st K (sim K) reg v w)).2.chip.selected = false := by
  have hi := sim_st_idle K reg v w
  obtain ⟨h1, h2⟩ := sim_ld K hK reg (mirf_st K (sim K) reg v w) hi
  refine ⟨?_, rfl, hi, rfl, ?_⟩
  · rw [h1, sim_st_chip K hK reg v w hidle]
    simp [Chip.load, Chip.store, hreg, Nat.mod_eq_of_lt hv]
  · rw [h2]

set_option maxRecDepth 100000 in
/-- Witness for C7: the channel register RF_CH and the value 0x4C on a chip
out of reset. -/
theorem mirf_st_ld_roundtrip_witness :
    (mirf_ld nRF24L01 (sim nRF24L01) nRF24L01.RF_CH
      (mirf_st nRF24L01 (sim nRF24L01) nRF24L01.RF_CH 0x4C (World.start Chip.reset))).1 = 0x4C :=
  (mirf_st_ld_roundtrip nRF24L01 (by decide) nRF24L01.RF_CH 0x4C (World.start Chip.reset)
    rfl (by decide) (by decide)).1

/-! ## Multi-byte transactions against the simulated chip -/

theorem map_getD_range (p : List Nat) (h : ∀ b ∈ p, b < 256) :
    (List.range p.length).map (fun j => p.getD j 0 % 256) = p := by
  apply List.ext_getElem
  · simp
  · intro n h1 h2
    simp at h1
    simp [List.getD_eq_getElem?_getD, List.getElem?_eq_getElem h1]
    exact h _ (List.getElem_mem h1)

theorem range_succ_map (f : Nat → Nat) (n : Nat) :
    (List.range (n + 1)).map f = f 0 :: (List.range n).map (fun j => f (j + 1)) := by
  rw [List.range_succ_eq_map]
  simp [Function.comp_def]

theorem and_BV_congr (x y b : Nat) (h : x.testBit b = y.testBit b) :
    x &&& _BV b = y &&& _BV b := by
  apply Nat.eq_of_testBit_eq
  intro i
  simp only [Nat.testBit_and, testBit_BV]
  by_cases hb : b = i
  · subst hb; simp [h]
  · simp [hb]

section SimMulti

variable (K : Consts)

/-- The data phase of a payload read: the simulated chip shifts out the head
of the receive queue from its position on, and only the position moves. -/
theorem sim_read_payload (n : Nat) : ∀ (data : List Nat) (w : World Chip),
    w.chip.selected = true → w.chip.cmd = some Cmd.r_rx_payload →
    (spi_ntransfer (sim K) data n w).1
      = (List.range n).map (fun j => (w.chip.rx_fifo.headD []).getD (w.chip.idx + j) 0 % 256) ∧
    (spi_ntransfer (sim K) data n w).2.chip = { w.chip with idx := w.chip.idx + n } := by
  induction n with
  | zero => intro data w _ _; simp [spi_ntransfer]
  | succ n ih =>
    intro data w hs hc
    have hstep : (spi_transfer (sim K) (data.headD 0) w).2.chip
        = { w.chip with idx := w.chip.idx + 1 } := by
      simp [spi_transfer, sim, Chip.exchange, hs, hc]
    have hval : (spi_transfer (sim K) (data.headD 0) w).1
        = (w.chip.rx_fifo.headD []).getD w.chip.idx 0 % 256 := by
      simp [spi_transfer, sim, Chip.exchange, hs, hc]
    obtain ⟨h1, h2⟩ := ih data.tail (spi_transfer (sim K) (data.headD 0) w).2
      (by rw [hstep]; exact hs) (by rw [hstep]; exact hc)
    constructor
    · rw [range_succ_map]
      simp only [spi_ntransfer, h1, hval, hstep, Nat.add_zero]
      congr 1
      apply List.map_congr_left
      intro j _
      congr 2
      omega
    · simp only [spi_ntransfer, h2, hstep]
      congr 1
      omega

/-- The data phase of a register read on a plain register: the simulated
chip shifts out the register's bytes from its position on, and only the
position moves. -/
theorem sim_read_register (r : Nat) (hr : r ≠ K.REGISTER_MASK &&& K.STATUS) (n : Nat) :
    ∀ (data : List Nat) (w : World Chip),
    w.chip.selected = true → w.chip.cmd = some (Cmd.r_register r) →
    (spi_ntransfer (sim K) data n w).1
      = (List.range n).map (fun j => w.chip.regs r (w.chip.idx + j) % 256) ∧
    (spi_ntransfer (sim K) data n w).2.chip = { w.chip with idx := w.chip.idx + n } := by
  induction n with
  | zero => intro data w _ _; simp [spi_ntransfer]
  | succ n ih =>
    intro data w hs hc
    have hstep : (spi_transfer (sim K) (data.headD 0) w).2.chip
        = { w.chip with idx := w.chip.idx + 1 } := by
      simp [spi_transfer, sim, Chip.exchange, hs, hc]
    have hval : (spi_transfer (sim K) (data.headD 0) w).1 = w.chip.regs r w.chip.idx % 256 := by
      simp [spi_transfer, sim, Chip.exchange, hs, hc, Chip.load, hr]
    obtain ⟨h1, h2⟩ := ih data.tail (spi_transfer (sim K) (data.headD 0) w).2
      (by rw [hstep]; exact hs) (by rw [hstep]; exact hc)
    constructor
    · rw [range_succ_map]
      simp only [spi_ntransfer, h1, hval, hstep, Nat.add_zero]
      congr 1
      apply List.map_congr_left
      intro j _
      congr 2
      omega
    · simp only [spi_ntransfer, h2, hstep]
      congr 1
      omega

/-- The data phase of a register write on a plain register: the simulated
chip takes the bytes in at consecutive positions of the register; the
transaction stays open and the bytes below the starting position stay. -/
theorem sim_write_register (r : Nat) (hr : r ≠ K.REGISTER_MASK &&& K.STATUS) (a : List Nat) :
    ∀ (w : World Chip),
    w.chip.selected = true → w.chip.cmd = some (Cmd.w_register r) →
    (spi_ntransfer (sim K) a a.length w).2.chip.selected = true ∧
    (spi_ntransfer (sim K) a a.length w).2.chip.cmd = some (Cmd.w_register r) ∧
    (∀ j, j < a.length →
      (spi_ntransfer (sim K) a a.length w).2.chip.regs r (w.chip.idx + j) = a.getD j 0 % 256) ∧
    (∀ i, i < w.chip.idx →
      (spi_ntransfer (sim K) a a.length w).2.chip.regs r i = w.chip.regs r i) := by
  induction a with
  | nil => intro w hs hc; simp [spi_ntransfer, hs, hc]
  | cons b bs ih =>
    intro w hs hc
    have hstep : (spi_transfer (sim K) b w).2.chip
        = { Chip.store K r w.chip.idx (b % 256) w.chip with idx := w.chip.idx + 1 } := by
      simp [spi_transfer, sim, Chip.exchange, hs, hc]
    have hsel : (spi_transfer (sim K) b w).2.chip.selected = true := by
      rw [hstep]; simp [Chip.store, hr, hs]
    have hcmd : (spi_transfer (sim K) b w).2.chip.cmd = some (Cmd.w_register r) := by
      rw [hstep]; simp [Chip.store, hr, hc]
    have hidx : (spi_transfer (sim K) b w).2.chip.idx = w.chip.idx + 1 := by
      rw [hstep]
    have hregs : ∀ i, (spi_transfer (sim K) b w).2.chip.regs r i
        = if i = w.chip.idx then b % 256 else w.chip.regs r i := by
      intro i; rw [hstep]; simp [Chip.store, hr]
    obtain ⟨h1, h2, h3, h4⟩ := ih (spi_transfer (sim K) b w).2 hsel hcmd
    simp only [List.length_cons, spi_ntransfer, List.headD_cons, List.tail_cons]
    refine ⟨h1, h2, ?_, ?_⟩
    · intro j hj
      cases j with
      | zero =>
        rw [Nat.add_zero, h4 w.chip.idx (by rw [hidx]; omega), hregs]
        simp
      | succ j =>
        have := h3 j (by simpa using hj)
        rw [hidx] at this
        rw [show w.chip.idx + (j + 1) = w.chip.idx + 1 + j by omega, this]
        simp
    · intro i hi
      rw [h4 i (by rw [hidx]; omega), hregs]
      simp [Nat.ne_of_lt hi]

/-- After `mirf_stm` to a plain register the simulated chip has no
transaction open and holds the bytes written, from byte 0 on. -/
theorem sim_stm_regs (hK : K.WF) (reg : Nat) (a : List Nat) (w : World Chip)
    (hidle : w.chip.selected = false)
    (hreg : K.REGISTER_MASK &&& reg ≠ K.REGISTER_MASK &&& K.STATUS) :
    (mirf_stm K (sim K) reg a a.length w).2.chip.selected = false ∧
    ∀ j, j < a.length →
      (mirf_stm K (sim K) reg a a.length w).2.chip.regs (K.REGISTER_MASK &&& reg) j
        = a.getD j 0 % 256 := by
  refine ⟨select_hi_idle _, ?_⟩
  have hopen : (_delay_us (sim K) 10 (spi_transfer (sim K)
      (K.W_REGISTER ||| (K.REGISTER_MASK &&& reg)) (CHIP_SELECT_LO (sim K) w)).2).chip
      = { w.chip with selected := true, cmd := some (Cmd.w_register (K.REGISTER_MASK &&& reg)),
                      idx := 0, pending := [] } := by
    simp [CHIP_SELECT_LO, spi_transfer, _delay_us, sim, Chip.select, Chip.exchange, Chip.command,
      wcmd_mod K hK, decode_wcmd K hK, hidle]
  obtain ⟨h1, h2, h3, _⟩ := sim_write_register K (K.REGISTER_MASK &&& reg) hreg a
    (_delay_us (sim K) 10 (spi_transfer (sim K)
      (K.W_REGISTER ||| (K.REGISTER_MASK &&& reg)) (CHIP_SELECT_LO (sim K) w)).2)
    (by rw [hopen]) (by rw [hopen])
  intro j hj
  have h := h3 j hj
  rw [hopen] at h
  simp only [Nat.zero_add] at h
  rw [← h]
  exact congrFun (congrFun (select_regs true _) _) _

/-- What `mirf_ldm` reads from a plain register of the simulated chip: its
bytes from byte 0 on. -/
theorem sim_ldm (hK : K.WF) (reg : Nat) (buf : List Nat) (n : Nat) (w : World Chip)
    (hidle : w.chip.selected = false)
    (hreg : K.REGISTER_MASK &&& reg ≠ K.REGISTER_MASK &&& K.STATUS) :
    (mirf_ldm K (sim K) reg buf n w).1
      = (List.range n).map (fun j => w.chip.regs (K.REGISTER_MASK &&& reg) j % 256)
          ++ buf.drop n := by
  have hopen : (_delay_us (sim K) 10 (spi_transfer (sim K)
      (K.R_REGISTER ||| (K.REGISTER_MASK &&& reg)) (CHIP_SELECT_LO (sim K) w)).2).chip
      = { w.chip with selected := true, cmd := some (Cmd.r_register (K.REGISTER_MASK &&& reg)),
                      idx := 0, pending := [] } := by
    simp [CHIP_SELECT_LO, spi_transfer, _delay_us, sim, Chip.select, Chip.exchange, Chip.command,
      rcmd_mod K hK, decode_rcmd K hK, hidle]
  obtain ⟨h1, _⟩ := sim_read_register K (K.REGISTER_MASK &&& reg) hreg n buf
    (_delay_us (sim K) 10 (spi_transfer (sim K)
      (K.R_REGISTER ||| (K.REGISTER_MASK &&& reg)) (CHIP_SELECT_LO (sim K) w)).2)
    (by rw [hopen]) (by rw [hopen])
  rw [hopen] at h1
  simp only [Nat.zero_add] at h1
  simp only [mirf_ldm, h1]

end SimMulti

/-- C8: on the simulated chip with no transaction open, for every sequence a
of five bytes, `mirf_stm(TX_ADDR, a, 5)` followed by `mirf_ldm(TX_ADDR, buf, 5)`
leaves the first five bytes of `buf` equal to a (and what `buf` holds beyond
them untouched), whatever `buf` held before. -/
theorem mirf_stm_ldm_roundtrip (K : Consts) (hK : K.WF) (a buf : List Nat) (w : World Chip)
    (hidle : w.chip.selected = false)
    (hreg : K.REGISTER_MASK &&& K.TX_ADDR ≠ K.REGISTER_MASK &&& K.STATUS)
    (ha : a.length = 5) (hbytes : ∀ b ∈ a, b < 256) :
    (mirf_ldm K (sim K) K.TX_ADDR buf 5 (mirf_stm K (sim K) K.TX_ADDR a 5 w).2).1
      = a ++ buf.drop 5 := by
  have hst := sim_stm_regs K hK K.TX_ADDR a w hidle hreg
  rw [ha] at hst
  obtain ⟨hi, hregs⟩ := hst
  rw [sim_ldm K hK K.TX_ADDR buf 5 _ hi hreg]
  congr 1
  have h5 := map_getD_range a hbytes
  rw [ha] at h5
  refine Eq.trans ?_ h5
  apply List.map_congr_left
  intro j hj
  rw [hregs j (by simpa using hj)]
  simp

set_option maxRecDepth 100000 in
/-- Witness for C8: the address AA BB CC DD EE, read back into a buffer that
held five 0x11 bytes, on a chip out of reset. -/
theorem mirf_stm_ldm_roundtrip_witness :
    (mirf_ldm nRF24L01 (sim nRF24L01) nRF24L01.TX_ADDR [0x11, 0x11, 0x11, 0x11, 0x11] 5
      (mirf_stm nRF24L01 (sim nRF24L01) nRF24L01.TX_ADDR [0xAA, 0xBB, 0xCC, 0xDD, 0xEE] 5
        (World.start Chip.reset)).2).1 = [0xAA, 0xBB, 0xCC, 0xDD, 0xEE] :=
  mirf_stm_ldm_roundtrip nRF24L01 (by decide) [0xAA, 0xBB, 0xCC, 0xDD, 0xEE]
    [0x11, 0x11, 0x11, 0x11, 0x11] (World.start Chip.reset) rfl (by decide) rfl (by decide)

/-! ## The receive path against the simulated chip -/

section SimRead

variable (K : Consts)

/-- The payload-read transaction of `mirf_read` on the simulated chip: the
bytes received are those of the head of the receive queue, and the chip is
left with that payload gone from the queue and no transaction open. -/
theorem sim_read_frame (hK : K.WF) (data : List Nat) (n : Nat) (w : World Chip)
    (hidle : w.chip.selected = false) :
    (spi_ntransfer (sim K) data n (_delay_us (sim K) 10
        (spi_transfer (sim K) K.R_RX_PAYLOAD (CHIP_SELECT_LO (sim K) w)).2)).1
      = (List.range n).map (fun j => (w.chip.rx_fifo.headD []).getD j 0 % 256) ∧
    (CHIP_SELECT_HI (sim K) (spi_ntransfer (sim K) data n (_delay_us (sim K) 10
        (spi_transfer (sim K) K.R_RX_PAYLOAD (CHIP_SELECT_LO (sim K) w)).2)).2).chip
      = { w.chip with rx_fifo := w.chip.rx_fifo.tail, selected := false, cmd := none,
                      idx := 0, pending := [] } := by
  have hb : K.R_RX_PAYLOAD % 256 = K.R_RX_PAYLOAD :=
    Nat.mod_eq_of_lt (hK.2.2.2.2.2.2.1 K.R_RX_PAYLOAD (by simp)).1
  have hopen : (_delay_us (sim K) 10
      (spi_transfer (sim K) K.R_RX_PAYLOAD (CHIP_SELECT_LO (sim K) w)).2).chip
      = { w.chip with selected := true, cmd := some Cmd.r_rx_payload, idx := 0, pending := [] } := by
    simp [CHIP_SELECT_LO, spi_transfer, _delay_us, sim, Chip.select, Chip.exchange, Chip.command,
      hb, decode_r_rx_payload K hK, hidle]
  obtain ⟨h1, h2⟩ := sim_read_payload K n data (_delay_us (sim K) 10
      (spi_transfer (sim K) K.R_RX_PAYLOAD (CHIP_SELECT_LO (sim K) w)).2)
    (by rw [hopen]) (by rw [hopen])
  rw [hopen] at h1 h2
  simp only [Nat.zero_add] at h1 h2
  refine ⟨h1, ?_⟩
  simp only [CHIP_SELECT_HI]
  rw [h2]
  simp [sim, Chip.select]

/-- The flush transaction that ends `mirf_read`, on the simulated chip: the
transmit queue is emptied and nothing else changes. -/
theorem sim_flush_tx (hK : K.WF) (w : World Chip) (hidle : w.chip.selected = false) :
    (CHIP_SELECT_HI (sim K) (spi_transfer (sim K) K.FLUSH_TX (CHIP_SELECT_LO (sim K) w)).2).chip
      = { w.chip with tx_fifo := [], selected := false, cmd := none, idx := 0, pending := [] } := by
  have hb : K.FLUSH_TX % 256 = K.FLUSH_TX :=
    Nat.mod_eq_of_lt (hK.2.2.2.2.2.2.1 K.FLUSH_TX (by simp)).1
  simp [CHIP_SELECT_LO, CHIP_SELECT_HI, spi_transfer, sim, Chip.select, Chip.exchange,
    Chip.command, hb, decode_flush_tx K hK, hidle]

/-- What `mirf_read` leaves of the simulated chip. -/
theorem sim_read_chip (hK : K.WF) (data : List Nat) (n : Nat) (w : World Chip)
    (hidle : w.chip.selected = false) :
    (mirf_read K (sim K) data n w).2.chip
      = { w.chip with
          status := w.chip.status ^^^ (w.chip.status &&& (_BV K.RX_DR % 256 &&& Chip.flags K))
          rx_fifo := w.chip.rx_fifo.tail, tx_fifo := []
          selected := false, cmd := none, idx := 0, pending := [] } := by
  have h4 := (sim_read_frame K hK data n w hidle).2
  have h5 := sim_st_chip K hK K.STATUS (_BV K.RX_DR)
    (CHIP_SELECT_HI (sim K) (spi_ntransfer (sim K) data n (_delay_us (sim K) 10
        (spi_transfer (sim K) K.R_RX_PAYLOAD (CHIP_SELECT_LO (sim K) w)).2)).2)
    (select_hi_idle _)
  have h6 := sim_flush_tx K hK _ (sim_st_idle K K.STATUS (_BV K.RX_DR)
    (CHIP_SELECT_HI (sim K) (spi_ntransfer (sim K) data n (_delay_us (sim K) 10
        (spi_transfer (sim K) K.R_RX_PAYLOAD (CHIP_SELECT_LO (sim K) w)).2)).2))
  rw [h5, h4] at h6
  simp only [mirf_read]
  rw [h6]
  simp [Chip.store]

end SimRead

/-- C6: on the simulated chip with no transaction open, whose receive queue
has at its head a payload p of bytes, `mirf_read(data, len)` with len the
length of p leaves data[0..len) equal to p (and the rest of `data` untouched);
afterwards the RX_DR flag is clear, the TX_DS and MAX_RT flags are what they
were, the transmit queue is empty, the receive queue has lost p and nothing
else, and the last transaction on the bus was the single byte FLUSH_TX. -/
theorem mirf_read_payload (K : Consts) (hK : K.WF) (p : List Nat) (rest : List (List Nat))
    (data : List Nat) (w : World Chip) (hidle : w.chip.selected = false)
    (hq : w.chip.rx_fifo = p :: rest) (hp : ∀ b ∈ p, b < 256) :
    (mirf_read K (sim K) data p.length w).1 = p ++ data.drop p.length ∧
    (mirf_read K (sim K) data p.length w).2.chip.status &&& _BV K.RX_DR = 0 ∧
    (mirf_read K (sim K) data p.length w).2.chip.status &&& _BV K.TX_DS
      = w.chip.status &&& _BV K.TX_DS ∧
    (mirf_read K (sim K) data p.length w).2.chip.status &&& _BV K.MAX_RT
      = w.chip.status &&& _BV K.MAX_RT ∧
    (mirf_read K (sim K) data p.length w).2.chip.tx_fifo = [] ∧
    (mirf_read K (sim K) data p.length w).2.chip.rx_fifo = rest ∧
    ∃ l, (mirf_read K (sim K) data p.length w).2.log
      = l ++ [Act.csn false, Act.spi K.FLUSH_TX, Act.csn true] := by
  obtain ⟨_, _, _, _, _, _, hc, _, h6, h5, h4, hnd⟩ := id hK
  simp only [List.nodup_cons, List.mem_cons, List.mem_singleton, not_or, List.not_mem_nil,
    not_false_eq_true, List.nodup_nil, and_true] at hnd
  have hchip := sim_read_chip K hK data p.length w hidle
  have hbv : _BV K.RX_DR % 256 = _BV K.RX_DR := BV_mod _ h6
  refine ⟨?_, ?_, ?_, ?_, ?_, ?_, ?_⟩
  · have h1 := (sim_read_frame K hK data p.length w hidle).1
    simp only [mirf_read, h1, hq, List.headD_cons]
    rw [map_getD_range p hp]
  · rw [hchip, and_BV_eq_zero]
    simp [hbv, testBit_BV, Chip.flags]
  · rw [hchip]
    apply and_BV_congr
    simp [hbv, testBit_BV, hnd.1.1]
  · rw [hchip]
    apply and_BV_congr
    simp [hbv, testBit_BV, hnd.1.2]
  · rw [hchip]
  · rw [hchip]; simp [hq]
  · have hb : K.FLUSH_TX % 256 = K.FLUSH_TX := Nat.mod_eq_of_lt (hc K.FLUSH_TX (by simp)).1
    refine ⟨(mirf_st K (sim K) K.STATUS (_BV K.RX_DR)
      (CHIP_SELECT_HI (sim K) (spi_ntransfer (sim K) data p.length (_delay_us (sim K) 10
        (spi_transfer (sim K) K.R_RX_PAYLOAD (CHIP_SELECT_LO (sim K) w)).2)).2)).log, ?_⟩
    simp [mirf_read, CHIP_SELECT_HI, CHIP_SELECT_LO, spi_transfer, hb]

set_option maxRecDepth 100000 in
/-- Witness for C6: the payload 01 02 03 04 05 00 00 00 at the head of the
receive queue, read into a zeroed 8-byte buffer. -/
theorem mirf_read_payload_witness :
    (mirf_read nRF24L01 (sim nRF24L01) [0, 0, 0, 0, 0, 0, 0, 0] 8
        (World.start Chip.received)).1 = [0x01, 0x02, 0x03, 0x04, 0x05, 0x00, 0x00, 0x00] ∧
    (mirf_read nRF24L01 (sim nRF24L01) [0, 0, 0, 0, 0, 0, 0, 0] 8
        (World.start Chip.received)).2.chip.status = 0x30 :=
  ⟨(mirf_read_payload nRF24L01 (by decide) [0x01, 0x02, 0x03, 0x04, 0x05, 0x00, 0x00, 0x00]
      [[9, 9, 9, 9, 9, 9, 9, 9]] [0, 0, 0, 0, 0, 0, 0, 0] (World.start Chip.received)
      rfl rfl (by decide)).1, by decide⟩

end Alamo
